import Mathlib

/-!
Shallow embedding of the wb-mqtt-logs log reader (src/log_reader.cpp).
The systemd journal is modelled as a chronological list of records; the
sd_journal seek/step calls are modelled by the seek-plan and visited-record
list they induce.  External effects (popen, ICU regex) are modelled as
explicit inputs: command output as a list of lines (or an error for a failed
popen), the ICU regex engine as a compile function that may fail.
-/

/-- Tests whether the list p occurs at the head of the list h
    (model of WBMQTT StringStartsWith and of the first step of ICU indexOf). -/
def startsList : List Char → List Char → Bool
  | [], _ => true
  | _ :: _, [] => false
  | p :: ps, h :: hs => p = h && startsList ps hs

/-- Position of the first occurrence of pat inside hay, if any
    (model of icu UnicodeString indexOf and of std string find). -/
def findSub (pat : List Char) : List Char → Option Nat
  | [] => if startsList pat [] then some 0 else none
  | h :: hs =>
    if startsList pat (h :: hs) then some 0
    else (findSub pat hs).map (· + 1)

/-- The containment property the substring search decides. -/
def ContainsSub (hay pat : List Char) : Prop :=
  ∃ l r, hay = l ++ pat ++ r

/-- Model of icu UnicodeString foldCase: code-point-wise case folding,
    modelled as per-character lowercasing. -/
def foldCase (s : String) : String :=
  String.mk (s.data.map Char.toLower)

/-- Model of WBMQTT StringStartsWith over strings. -/
def strStartsWith (s p : String) : Bool :=
  startsList p.data s.data

/-- HasSubstring from log_reader.cpp: case-sensitive indexOf, or indexOf of
    the case-folded operands. -/
def HasSubstring (msg pat : String) (caseSensitive : Bool) : Bool :=
  if caseSensitive then (findSub pat.data msg.data).isSome
  else (findSub (foldCase pat).data (foldCase msg).data).isSome

/-- Error raised by MatchesRegex when RegexMatcher construction fails
    (the runtime error thrown on U_FAILURE after compiling the pattern). -/
inductive PatternError where
  | compileFailed
  deriving DecidableEq, Repr

deriving instance DecidableEq for Except

/-- The ICU regex engine, as the interface the code uses: compiling a
    pattern with a case-sensitivity flag either fails or yields a total
    matcher over message strings. -/
structure RegexEngine where
  compile : String → Bool → Option (String → Bool)

/-- MatchesRegex from log_reader.cpp: compile the pattern (throwing on
    failure), then search the message. -/
def MatchesRegex (re : RegexEngine) (msg pat : String) (caseSensitive : Bool) :
    Except PatternError Bool :=
  match re.compile pat caseSensitive with
  | none => Except.error PatternError.compileFailed
  | some m => Except.ok (m msg)

/-- The pattern guard as it appears at both call sites (AddMsg and
    GetDmesgLogs): an empty pattern filters nothing, otherwise the regex or
    substring matcher decides. -/
def patternKeeps (re : RegexEngine) (msg pat : String) (cs rx : Bool) :
    Except PatternError Bool :=
  if pat = "" then Except.ok true
  else if rx then MatchesRegex re msg pat cs
  else Except.ok (HasSubstring msg pat cs)

/-- MAX_LOG_RECORDS from log_reader.cpp. -/
def MAX_LOG_RECORDS : Nat := 100

/-- DMESG_SERVICE sentinel from log_reader.cpp. -/
def DMESG_SERVICE : String := "dmesg"

/-- The cursor object of a Load request; absent members read with default
    empty-string, as the code does with Json get. -/
structure CursorParam where
  id : String := ""
  direction : String := ""
  deriving DecidableEq, Repr

/-- The fields of a Load request params object that the code reads.  Fields
    read with a Json default are plain values carrying that default; fields
    probed with isMember are Options.  The levels array is modelled as the
    list of its integer members (the code skips non-integers). -/
structure LoadParams where
  service : String := ""
  boot : String := ""
  levels : List Int := []
  time : Option Int := none
  cursor : Option CursorParam := none
  pattern : String := ""
  caseSensitive : Bool := true
  regex : Bool := false
  limit : Option Nat := none
  deriving DecidableEq, Repr

/-- GetMaxLogsEntries from log_reader.cpp. -/
def GetMaxLogsEntries (params : LoadParams) : Nat :=
  min MAX_LOG_RECORDS (params.limit.getD MAX_LOG_RECORDS)

/-- TFilterDirection from log_reader.cpp. -/
inductive TFilterDirection where
  | Forward
  | Backward
  | Default
  deriving DecidableEq, Repr

/-- TJournalctlFilterParams from log_reader.cpp (From kept in microseconds). -/
structure TJournalctlFilterParams where
  Direction : TFilterDirection := TFilterDirection.Default
  Service : String := ""
  MaxEntries : Nat := MAX_LOG_RECORDS
  FromUsec : Int := 0
  Cursor : String := ""
  Pattern : String := ""
  CaseSensitive : Bool := true
  RegEx : Bool := false
  deriving DecidableEq, Repr

/-- The match clauses SetFilter installs with sd_journal_add_match:
    a unit clause, a boot clause and one PRIORITY clause per valid level. -/
structure MatchFilter where
  service : String := ""
  boot : String := ""
  levels : List Int := []
  deriving DecidableEq, Repr

/-- The levels for which SetFilter adds a PRIORITY match: integer members in
    the syslog range 0..7, first occurrence only. -/
def validLevels (ls : List Int) : List Int :=
  ls.foldl (fun acc l => if 0 ≤ l ∧ l ≤ 7 ∧ ¬ acc.contains l then acc ++ [l] else acc) []

/-- SetFilter from log_reader.cpp: derives the scan parameters and the match
    clauses from the request. -/
def SetFilter (params : LoadParams) : TJournalctlFilterParams × MatchFilter :=
  let dir :=
    match params.cursor with
    | none => TFilterDirection.Default
    | some c =>
      if c.direction = "forward" then TFilterDirection.Forward
      else if c.direction = "backward" then TFilterDirection.Backward
      else TFilterDirection.Default
  let cursorId :=
    match params.cursor with
    | none => ""
    | some c => c.id
  let fromUsec : Int :=
    match params.time with
    | none => 0
    | some t => t * 1000000
  ({ Direction := dir,
     Service := params.service,
     MaxEntries := GetMaxLogsEntries params,
     FromUsec := fromUsec,
     Cursor := cursorId,
     Pattern := params.pattern,
     CaseSensitive := params.caseSensitive,
     RegEx := params.regex },
   { service := params.service, boot := params.boot, levels := validLevels params.levels })

/-- One record of the journal store: the raw fields the code reads, the
    realtime timestamp in microseconds, and its opaque cursor token. -/
structure JournalRecord where
  message : Option String := none
  priority : Option Int := none
  unit : Option String := none
  bootId : Option String := none
  tsUsec : Nat := 0
  ctok : String := ""
  deriving DecidableEq, Repr

/-- Whether a record passes the installed match clauses (sd_journal match
    semantics: conjunction across fields, disjunction inside PRIORITY). -/
def recVisible (mf : MatchFilter) (r : JournalRecord) : Bool :=
  (mf.service = "" || r.unit = some mf.service) &&
  (mf.boot = "" || r.bootId = some mf.boot) &&
  (mf.levels.isEmpty ||
    (match r.priority with
     | some p => mf.levels.contains p
     | none => false))

/-- One returned log entry; absent Json members are none. -/
structure LogEntry where
  msg : String
  time : Option Int := none
  level : Option Int := none
  cursor : Option String := none
  service : Option String := none
  deriving DecidableEq, Repr

/-- LibWbMqttLogLevels from log_reader.cpp: syslog values of LOG_ERR,
    LOG_WARNING, LOG_DEBUG. -/
def LibWbMqttLogLevels : List (String × Int) :=
  [("ERROR:", 3), ("WARNING:", 4), ("DEBUG:", 7)]

/-- The level AddMsg derives from a libwbmqtt1 message tag, if any
    (the any_of loop over LibWbMqttLogLevels). -/
def tagLevel (d : String) : Option Int :=
  (LibWbMqttLogLevels.find? (fun p => strStartsWith d p.1)).map (fun p => p.2)

/-- AddMsg from log_reader.cpp: fails the record when MESSAGE is missing or
    the pattern rejects it; otherwise sets msg and the tag-derived level
    (the entry is fresh, so its level member is absent beforehand). -/
def AddMsg (re : RegexEngine) (rec : JournalRecord) (pat : String) (cs rx : Bool) :
    Except PatternError (Option LogEntry) :=
  match rec.message with
  | none => Except.ok none
  | some d =>
    match patternKeeps re d pat cs rx with
    | Except.error e => Except.error e
    | Except.ok false => Except.ok none
    | Except.ok true => Except.ok (some { msg := d, level := tagLevel d })

/-- AddTimestamp from log_reader.cpp: realtime microseconds to milliseconds. -/
def AddTimestamp (rec : JournalRecord) (e : LogEntry) : LogEntry :=
  { e with time := some ((rec.tsUsec / 1000 : Nat) : Int) }

/-- AddCursor from log_reader.cpp. -/
def AddCursor (rec : JournalRecord) (e : LogEntry) : LogEntry :=
  { e with cursor := some rec.ctok }

/-- AddPriority from log_reader.cpp: the raw PRIORITY field is used only
    when it is not LOG_INFO (6) and no level was derived from a tag. -/
def AddPriority (rec : JournalRecord) (e : LogEntry) : LogEntry :=
  match rec.priority with
  | none => e
  | some p => if p ≠ 6 ∧ e.level = none then { e with level := some p } else e

/-- SERVICE_SUFFIX from AddService in log_reader.cpp. -/
def SERVICE_SUFFIX : String := ".service"

/-- AddService from log_reader.cpp: the unit name with one trailing
    ".service" stripped. -/
def AddService (rec : JournalRecord) (e : LogEntry) : LogEntry :=
  match rec.unit with
  | none => e
  | some s =>
    if s.endsWith SERVICE_SUFFIX then
      { e with service := some (String.mk (s.data.take (s.data.length - SERVICE_SUFFIX.data.length))) }
    else
      { e with service := some s }

/-- The body of the scan loop in MakeJouralctlRequest for one record:
    AddMsg, then timestamp, cursor, priority, and service when no service
    match clause was installed. -/
def buildEntry (re : RegexEngine) (rec : JournalRecord) (pat : String)
    (cs rx serviceSet : Bool) : Except PatternError (Option LogEntry) :=
  match AddMsg re rec pat cs rx with
  | Except.error e => Except.error e
  | Except.ok none => Except.ok none
  | Except.ok (some item) =>
    let item := AddPriority rec (AddCursor rec (AddTimestamp rec item))
    Except.ok (some (if serviceSet then item else AddService rec item))

/-- The stepping loop of MakeJouralctlRequest over the records the seek plan
    makes it visit: stops when records run out, MaxEntries reaches zero or
    the cancellation flag is set; records rejected by AddMsg do not count
    toward the limit; a pattern compile failure aborts the whole call. -/
def scanLoop (re : RegexEngine) (pat : String) (cs rx serviceSet cancel : Bool) :
    Nat → List JournalRecord → Except PatternError (List LogEntry)
  | _, [] => Except.ok []
  | maxE, r :: rs =>
    if maxE = 0 ∨ cancel = true then Except.ok []
    else
      match buildEntry re r pat cs rx serviceSet with
      | Except.error e => Except.error e
      | Except.ok none => scanLoop re pat cs rx serviceSet cancel maxE rs
      | Except.ok (some item) =>
        (scanLoop re pat cs rx serviceSet cancel (maxE - 1) rs).map (fun l => item :: l)

/-- The seek issued by MakeJouralctlRequest before the stepping loop. -/
inductive SeekSpec where
  | cursor (id : String) (skip : Bool)
  | realtime (usec : Nat)
  | tail
  deriving DecidableEq, Repr

/-- The physical step direction: sd_journal_next for Forward, otherwise
    sd_journal_previous. -/
inductive StepDir where
  | forward
  | backward
  deriving DecidableEq, Repr

/-- The seek decision of MakeJouralctlRequest: a non-empty cursor id wins,
    with the extra skip step exactly when the direction is explicit; else a
    positive time seeks by realtime; else seek to tail. -/
def seekSpecOf (filter : TJournalctlFilterParams) : SeekSpec :=
  if filter.Cursor ≠ "" then
    SeekSpec.cursor filter.Cursor (filter.Direction ≠ TFilterDirection.Default)
  else if 0 < filter.FromUsec then SeekSpec.realtime filter.FromUsec.toNat
  else SeekSpec.tail

/-- The step direction chosen by MakeJouralctlRequest. -/
def stepDirOf (filter : TJournalctlFilterParams) : StepDir :=
  if filter.Direction = TFilterDirection.Forward then StepDir.forward
  else StepDir.backward

/-- The records, in visiting order, that the stepping loop sees from the
    visible (match-passing) records vs, given the seek and direction:
    sd_journal_seek_cursor is sticky, so the first step lands on the pointed
    record itself; the skip step consumes it.  An unknown cursor token
    yields no records (not exercised by the claims).  The realtime boundary
    is modelled as: stepping backward visits records at or before the target
    time, stepping forward the ones at or after it. -/
def seekList (vs : List JournalRecord) : SeekSpec → StepDir → List JournalRecord
  | SeekSpec.tail, StepDir.backward => vs.reverse
  | SeekSpec.tail, StepDir.forward => []
  | SeekSpec.realtime t, StepDir.backward => (vs.filter (fun r => r.tsUsec ≤ t)).reverse
  | SeekSpec.realtime t, StepDir.forward => vs.filter (fun r => t ≤ r.tsUsec)
  | SeekSpec.cursor id skip, dir =>
    match vs.findIdx? (fun r => r.ctok = id) with
    | none => []
    | some i =>
      match dir with
      | StepDir.backward => (vs.take (if skip then i else i + 1)).reverse
      | StepDir.forward => vs.drop (if skip then i + 1 else i)

/-- The records the stepping loop of MakeJouralctlRequest visits, in order:
    the records passing the installed match clauses, arranged by the seek
    and step direction the filter demands. -/
def scanRecsOf (params : LoadParams) (journal : List JournalRecord) :
    List JournalRecord :=
  seekList (journal.filter (recVisible (SetFilter params).2))
    (seekSpecOf (SetFilter params).1) (stepDirOf (SetFilter params).1)

/-- MakeJouralctlRequest from log_reader.cpp over a journal store given as a
    chronological record list: set the filter, seek, step collecting
    entries, and reverse a forward scan into descending order. -/
def MakeJouralctlRequest (re : RegexEngine) (params : LoadParams)
    (journal : List JournalRecord) (cancelLoading : Bool) :
    Except PatternError (List LogEntry) :=
  let filter := (SetFilter params).1
  match scanLoop re filter.Pattern filter.CaseSensitive filter.RegEx
      (filter.Service ≠ "") cancelLoading filter.MaxEntries
      (scanRecsOf params journal) with
  | Except.error e => Except.error e
  | Except.ok out =>
    Except.ok (if filter.Direction = TFilterDirection.Forward then out.reverse else out)

/-- The for_each(++begin, --end) cursor removal: strips the cursor member
    from every element except the last. -/
def stripInner : List LogEntry → List LogEntry
  | [] => []
  | [x] => [x]
  | x :: y :: xs => { x with cursor := none } :: stripInner (y :: xs)

/-- The cursor-trimming step of GetJouralctlLogs: pages of more than two
    entries keep a cursor only on the first and last entry. -/
def trimCursors (l : List LogEntry) : List LogEntry :=
  if 2 < l.length then
    match l with
    | [] => []
    | x :: xs => x :: stripInner xs
  else l

/-- GetJouralctlLogs from log_reader.cpp. -/
def GetJouralctlLogs (re : RegexEngine) (params : LoadParams)
    (journal : List JournalRecord) (cancelLoading : Bool) :
    Except PatternError (List LogEntry) :=
  (MakeJouralctlRequest re params journal cancelLoading).map trimCursors

/-- Digit string to natural number (decimal). -/
def natOfDigits (ds : List Char) : Nat :=
  ds.foldl (fun a c => a * 10 + (c.toNat - 48)) 0

/-- The strtod call of ParseDmesgLog followed by the cast of seconds times
    1000 to a millisecond count, for the decimal timestamps dmesg emits:
    skip spaces, read integer and fractional digits, truncate value times
    1000 toward zero (signs and exponents never occur in dmesg output and
    are not modelled). -/
def parseSecondsToMs (cs : List Char) : Int :=
  let cs1 := cs.dropWhile (fun c => c = ' ')
  let ip := cs1.takeWhile Char.isDigit
  let rest := cs1.dropWhile Char.isDigit
  match rest with
  | '.' :: rest2 =>
    let fp := rest2.takeWhile Char.isDigit
    ((natOfDigits (ip ++ fp) * 1000) / (10 ^ fp.length) : Nat)
  | _ => (natOfDigits ip * 1000 : Nat)

/-- ParseDmesgLog from log_reader.cpp: a leading bracket introduces a
    boot-relative timestamp; the message is what follows the closing bracket
    and one optional space; otherwise the whole line is the message. -/
def ParseDmesgLog (line : String) (bootMs : Int) : LogEntry :=
  match line.data with
  | '[' :: rest =>
    let t := bootMs + parseSecondsToMs rest
    let p :=
      match (line.data).findIdx? (fun c => c = ']') with
      | none => 0
      | some q => q + 1
    let p := if (line.data).get? p = some ' ' then p + 1 else p
    { msg := String.mk ((line.data).drop p), time := some t }
  | _ => { msg := line }

/-- The per-line loop of GetDmesgLogs: parse, filter by pattern, keep. -/
def dmesgLoop (re : RegexEngine) (pat : String) (cs rx : Bool) (bootMs : Int) :
    List String → Except PatternError (List LogEntry)
  | [] => Except.ok []
  | s :: rest =>
    let entry := ParseDmesgLog s bootMs
    match patternKeeps re entry.msg pat cs rx with
    | Except.error e => Except.error e
    | Except.ok false => dmesgLoop re pat cs rx bootMs rest
    | Except.ok true => (dmesgLoop re pat cs rx bootMs rest).map (fun l => entry :: l)

/-- GetDmesgLogs from log_reader.cpp over the dmesg command output given as
    a list of lines (in the order the ring buffer dump produces them,
    chronological oldest first). -/
def GetDmesgLogs (re : RegexEngine) (params : LoadParams) (lines : List String)
    (bootMs : Int) : Except PatternError (List LogEntry) :=
  dmesgLoop re params.pattern params.caseSensitive params.regex bootMs lines

/-- GetLogs from log_reader.cpp: dispatch on the requested service; only the
    journal path receives the cancellation flag. -/
def GetLogs (re : RegexEngine) (params : LoadParams) (journal : List JournalRecord)
    (dmesgLines : List String) (bootMs : Int) (cancelLoading : Bool) :
    Except PatternError (List LogEntry) :=
  if params.service = DMESG_SERVICE then GetDmesgLogs re params dmesgLines bootMs
  else GetJouralctlLogs re params journal cancelLoading

/-- TMQTTJournaldGateway Load: resets the cancellation flag to false and
    runs GetLogs; a thrown error is logged and rethrown, so it reaches the
    caller unchanged. -/
def loadRPC (re : RegexEngine) (params : LoadParams) (journal : List JournalRecord)
    (dmesgLines : List String) (bootMs : Int) : Except PatternError (List LogEntry) :=
  GetLogs re params journal dmesgLines bootMs false

/-- One parsed boot record held in the cached Boots value. -/
structure BootRec where
  hash : String := ""
  startT : Int := 0
  endT : Option Int := none
  deriving DecidableEq, Repr

/-- The substring truncation of one systemctl output line in GetServices:
    lines containing ".service" are cut just after its first occurrence,
    other lines are dropped. -/
def serviceLine (s : String) : Option String :=
  match findSub SERVICE_SUFFIX.data s.data with
  | none => none
  | some p => some (String.mk (s.data.take (p + SERVICE_SUFFIX.data.length)))

/-- GetServices from log_reader.cpp, over the outcome of the systemctl
    command: a popen failure propagates as a thrown error, otherwise the
    truncated service lines plus the dmesg sentinel, appended last. -/
def GetServices (cmdOut : Except String (List String)) : Except String (List String) :=
  match cmdOut with
  | Except.error e => Except.error e
  | Except.ok lines => Except.ok (lines.filterMap serviceLine ++ [DMESG_SERVICE])

/-- The response object List builds: the boots member is assigned before
    GetServices runs, so it is always present; the services member is absent
    when GetServices threw. -/
structure ListResponse where
  boots : List BootRec
  servicesMember : Option (List String)
  deriving DecidableEq, Repr

/-- TMQTTJournaldGateway List: assigns the cached boots, then the services
    list; an exception from GetServices is caught and logged, and the
    response built so far is returned. -/
def listRPC (cachedBoots : List BootRec) (servicesCmd : Except String (List String)) :
    ListResponse :=
  match GetServices servicesCmd with
  | Except.ok ss => { boots := cachedBoots, servicesMember := some ss }
  | Except.error _ => { boots := cachedBoots, servicesMember := none }

/-- Comparison of two entry timestamps: both present and the first strictly
    newer. -/
def optGtB : Option Int → Option Int → Bool
  | some a, some b => decide (b < a)
  | _, _ => false

/-- A list of timestamps in strictly descending order. -/
def newestFirstT : List (Option Int) → Bool
  | [] => true
  | [_] => true
  | a :: b :: rest => optGtB a b && newestFirstT (b :: rest)

/-- A list of entries ordered strictly newest first by timestamp. -/
def newestFirst (l : List LogEntry) : Bool :=
  newestFirstT (l.map (fun e => e.time))

/-- The cursor-presence mask the spec describes for a page of n entries:
    every entry for n at most 2, else only the first and the last. -/
def cursorMask (n : Nat) : List Bool :=
  if n ≤ 2 then List.replicate n true
  else true :: (List.replicate (n - 2) false ++ [true])

/-- Whether a Load call outcome is a request-level error. -/
def isLoadError (r : Except PatternError (List LogEntry)) : Bool :=
  match r with
  | Except.error _ => true
  | Except.ok _ => false

/-- A regex engine on which every pattern fails to compile. -/
def failingEngine : RegexEngine := { compile := fun _ _ => none }

/-- A regex engine that never fails and matches everything. -/
def totalEngine : RegexEngine := { compile := fun _ _ => some (fun _ => true) }

theorem startsList_iff (p : List Char) : ∀ h : List Char,
    startsList p h = true ↔ ∃ r, h = p ++ r := by
  induction p with
  | nil =>
    intro h
    simp [startsList]
  | cons c ps ih =>
    intro h
    cases h with
    | nil =>
      simp [startsList]
    | cons d hs =>
      simp only [startsList, Bool.and_eq_true, decide_eq_true_eq, ih hs]
      constructor
      · rintro ⟨rfl, r, rfl⟩
        exact ⟨r, rfl⟩
      · rintro ⟨r, hr⟩
        rw [List.cons_append] at hr
        cases hr
        exact ⟨rfl, r, rfl⟩

theorem findSub_isSome_iff (p : List Char) : ∀ h : List Char,
    (findSub p h).isSome = true ↔ ContainsSub h p := by
  intro h
  induction h with
  | nil =>
    simp only [findSub, ContainsSub]
    by_cases hstart : startsList p [] = true
    · obtain ⟨r, hr⟩ := (startsList_iff p []).mp hstart
      rw [if_pos hstart]
      simp only [Option.isSome_some, true_iff]
      exact ⟨[], r, by simpa using hr⟩
    · rw [if_neg hstart]
      simp only [Option.isSome_none]
      constructor
      · intro hx
        exact absurd hx (by simp)
      rintro ⟨l, r, hlr⟩
      exfalso
      apply hstart
      rw [startsList_iff]
      have hl : l = [] := by
        cases l with
        | nil => rfl
        | cons a as => simp at hlr
      subst hl
      exact ⟨r, by simpa using hlr⟩
  | cons c hs ih =>
    simp only [findSub]
    by_cases hstart : startsList p (c :: hs) = true
    · obtain ⟨r, hr⟩ := (startsList_iff p (c :: hs)).mp hstart
      rw [if_pos hstart]
      simp only [Option.isSome_some, true_iff, ContainsSub]
      exact ⟨[], r, by simpa using hr⟩
    · rw [if_neg hstart]
      have hmap : (Option.map (fun x => x + 1) (findSub p hs)).isSome
          = (findSub p hs).isSome := by
        cases findSub p hs <;> rfl
      rw [hmap, ih]
      constructor
      · rintro ⟨l, r, hlr⟩
        exact ⟨c :: l, r, by simp [hlr]⟩
      · rintro ⟨l, r, hlr⟩
        cases l with
        | nil =>
          exfalso
          apply hstart
          rw [startsList_iff]
          exact ⟨r, by simpa using hlr⟩
        | cons a as =>
          rw [List.cons_append, List.cons_append] at hlr
          cases hlr
          exact ⟨as, r, rfl⟩


theorem AddTimestamp_level (rec : JournalRecord) (e : LogEntry) :
    (AddTimestamp rec e).level = e.level := rfl

theorem AddCursor_level (rec : JournalRecord) (e : LogEntry) :
    (AddCursor rec e).level = e.level := rfl

theorem AddPriority_level_of_info (rec : JournalRecord) (e : LogEntry)
    (h : rec.priority = some 6) : (AddPriority rec e).level = e.level := by
  simp [AddPriority, h]

theorem AddService_level (rec : JournalRecord) (e : LogEntry) :
    (AddService rec e).level = e.level := by
  unfold AddService
  cases rec.unit with
  | none => rfl
  | some s =>
    by_cases h : s.endsWith SERVICE_SUFFIX <;> simp [h]

theorem AddPriority_cursor (rec : JournalRecord) (e : LogEntry) :
    (AddPriority rec e).cursor = e.cursor := by
  unfold AddPriority
  cases rec.priority with
  | none => rfl
  | some p =>
    by_cases h : p ≠ 6 ∧ e.level = none <;> simp [h]

theorem AddService_cursor (rec : JournalRecord) (e : LogEntry) :
    (AddService rec e).cursor = e.cursor := by
  unfold AddService
  cases rec.unit with
  | none => rfl
  | some s =>
    by_cases h : s.endsWith SERVICE_SUFFIX <;> simp [h]

theorem AddPriority_time (rec : JournalRecord) (e : LogEntry) :
    (AddPriority rec e).time = e.time := by
  unfold AddPriority
  cases rec.priority with
  | none => rfl
  | some p =>
    by_cases h : p ≠ 6 ∧ e.level = none <;> simp [h]

theorem AddService_time (rec : JournalRecord) (e : LogEntry) :
    (AddService rec e).time = e.time := by
  unfold AddService
  cases rec.unit with
  | none => rfl
  | some s =>
    by_cases h : s.endsWith SERVICE_SUFFIX <;> simp [h]

theorem buildEntry_cursor (re : RegexEngine) (rec : JournalRecord) (pat : String)
    (cs rx serviceSet : Bool) (item : LogEntry)
    (h : buildEntry re rec pat cs rx serviceSet = Except.ok (some item)) :
    item.cursor = some rec.ctok := by
  unfold buildEntry at h
  cases hmsg : AddMsg re rec pat cs rx with
  | error e => rw [hmsg] at h; exact absurd h (by simp)
  | ok o =>
    rw [hmsg] at h
    cases o with
    | none => exact absurd h (by simp)
    | some e0 =>
      simp only [Except.ok.injEq, Option.some.injEq] at h
      subst h
      by_cases hss : serviceSet = true
      · simp [hss, AddPriority_cursor, AddCursor]
      · simp only [Bool.not_eq_true] at hss
        simp [hss, AddService_cursor, AddPriority_cursor, AddCursor]

theorem buildEntry_time (re : RegexEngine) (rec : JournalRecord) (pat : String)
    (cs rx serviceSet : Bool) (item : LogEntry)
    (h : buildEntry re rec pat cs rx serviceSet = Except.ok (some item)) :
    item.time = some ((rec.tsUsec / 1000 : Nat) : Int) := by
  unfold buildEntry at h
  cases hmsg : AddMsg re rec pat cs rx with
  | error e => rw [hmsg] at h; exact absurd h (by simp)
  | ok o =>
    rw [hmsg] at h
    cases o with
    | none => exact absurd h (by simp)
    | some e0 =>
      simp only [Except.ok.injEq, Option.some.injEq] at h
      subst h
      by_cases hss : serviceSet = true
      · simp [hss, AddPriority_time, AddCursor, AddTimestamp]
      · simp only [Bool.not_eq_true] at hss
        simp [hss, AddService_time, AddPriority_time, AddCursor, AddTimestamp]

theorem scanLoop_length (re : RegexEngine) (pat : String) (cs rx ss cancel : Bool) :
    ∀ (recs : List JournalRecord) (maxE : Nat) (out : List LogEntry),
    scanLoop re pat cs rx ss cancel maxE recs = Except.ok out → out.length ≤ maxE := by
  intro recs
  induction recs with
  | nil =>
    intro maxE out h
    simp only [scanLoop, Except.ok.injEq] at h
    subst h
    simp
  | cons r rs ih =>
    intro maxE out h
    simp only [scanLoop] at h
    by_cases hstop : maxE = 0 ∨ cancel = true
    · rw [if_pos hstop] at h
      simp only [Except.ok.injEq] at h
      subst h
      simp
    · rw [if_neg hstop] at h
      push_neg at hstop
      cases hb : buildEntry re r pat cs rx ss with
      | error e => rw [hb] at h; exact absurd h (by simp)
      | ok o =>
        rw [hb] at h
        cases o with
        | none => exact ih maxE out h
        | some item =>
          cases hrest : scanLoop re pat cs rx ss cancel (maxE - 1) rs with
          | error e => rw [hrest] at h; exact absurd h (by simp [Except.map])
          | ok out2 =>
            rw [hrest] at h
            simp only [Except.map, Except.ok.injEq] at h
            subst h
            have := ih (maxE - 1) out2 hrest
            simp only [List.length_cons]
            omega

theorem scanLoop_cursor_all (re : RegexEngine) (pat : String) (cs rx ss cancel : Bool) :
    ∀ (recs : List JournalRecord) (maxE : Nat) (out : List LogEntry),
    scanLoop re pat cs rx ss cancel maxE recs = Except.ok out →
    ∀ e ∈ out, e.cursor.isSome = true := by
  intro recs
  induction recs with
  | nil =>
    intro maxE out h
    simp only [scanLoop, Except.ok.injEq] at h
    subst h
    simp
  | cons r rs ih =>
    intro maxE out h
    simp only [scanLoop] at h
    by_cases hstop : maxE = 0 ∨ cancel = true
    · rw [if_pos hstop] at h
      simp only [Except.ok.injEq] at h
      subst h
      simp
    · rw [if_neg hstop] at h
      cases hb : buildEntry re r pat cs rx ss with
      | error e => rw [hb] at h; exact absurd h (by simp)
      | ok o =>
        rw [hb] at h
        cases o with
        | none => exact ih maxE out h
        | some item =>
          cases hrest : scanLoop re pat cs rx ss cancel (maxE - 1) rs with
          | error e => rw [hrest] at h; exact absurd h (by simp [Except.map])
          | ok out2 =>
            rw [hrest] at h
            simp only [Except.map, Except.ok.injEq] at h
            subst h
            intro e he
            rcases List.mem_cons.mp he with rfl | hmem
            · rw [buildEntry_cursor re r pat cs rx ss e hb]
              rfl
            · exact ih (maxE - 1) out2 hrest e hmem

theorem scanLoop_times_sublist (re : RegexEngine) (pat : String) (cs rx ss cancel : Bool) :
    ∀ (recs : List JournalRecord) (maxE : Nat) (out : List LogEntry),
    scanLoop re pat cs rx ss cancel maxE recs = Except.ok out →
    List.Sublist (out.map (fun e => e.time))
      (recs.map (fun r => some ((r.tsUsec / 1000 : Nat) : Int))) := by
  intro recs
  induction recs with
  | nil =>
    intro maxE out h
    simp only [scanLoop, Except.ok.injEq] at h
    subst h
    simp
  | cons r rs ih =>
    intro maxE out h
    simp only [scanLoop] at h
    by_cases hstop : maxE = 0 ∨ cancel = true
    · rw [if_pos hstop] at h
      simp only [Except.ok.injEq] at h
      subst h
      simp
    · rw [if_neg hstop] at h
      cases hb : buildEntry re r pat cs rx ss with
      | error e => rw [hb] at h; exact absurd h (by simp)
      | ok o =>
        rw [hb] at h
        cases o with
        | none =>
          exact List.Sublist.cons _ (ih maxE out h)
        | some item =>
          cases hrest : scanLoop re pat cs rx ss cancel (maxE - 1) rs with
          | error e => rw [hrest] at h; exact absurd h (by simp [Except.map])
          | ok out2 =>
            rw [hrest] at h
            simp only [Except.map, Except.ok.injEq] at h
            subst h
            simp only [List.map_cons]
            rw [buildEntry_time re r pat cs rx ss item hb]
            exact List.Sublist.cons₂ _ (ih (maxE - 1) out2 hrest)

theorem stripInner_length : ∀ l : List LogEntry, (stripInner l).length = l.length := by
  intro l
  induction l with
  | nil => rfl
  | cons x xs ih =>
    cases xs with
    | nil => rfl
    | cons y ys =>
      simp only [stripInner, List.length_cons]
      simpa using ih

theorem stripInner_times : ∀ l : List LogEntry,
    (stripInner l).map (fun e => e.time) = l.map (fun e => e.time) := by
  intro l
  induction l with
  | nil => rfl
  | cons x xs ih =>
    cases xs with
    | nil => rfl
    | cons y ys =>
      simp only [stripInner, List.map_cons] at ih ⊢
      rw [ih]

theorem stripInner_mask : ∀ l : List LogEntry, l ≠ [] →
    (∀ e ∈ l, e.cursor.isSome = true) →
    (stripInner l).map (fun e => e.cursor.isSome) =
      List.replicate (l.length - 1) false ++ [true] := by
  intro l
  induction l with
  | nil => intro h; exact absurd rfl h
  | cons x xs ih =>
    intro _ hall
    cases xs with
    | nil =>
      simp only [stripInner, List.map_cons, List.map_nil, List.length_cons]
      rw [hall x (by simp)]
      rfl
    | cons y ys =>
      simp only [stripInner, List.map_cons]
      have hrec := ih (by simp) (fun e he => hall e (List.mem_cons_of_mem x he))
      rw [hrec]
      simp only [Option.isSome_none, List.length_cons, Nat.add_sub_cancel,
        List.replicate_succ, List.cons_append]

theorem trimCursors_length (l : List LogEntry) :
    (trimCursors l).length = l.length := by
  unfold trimCursors
  by_cases h : 2 < l.length
  · rw [if_pos h]
    cases l with
    | nil => rfl
    | cons x xs =>
      simp only [List.length_cons]
      simpa using stripInner_length xs
  · rw [if_neg h]

theorem trimCursors_times (l : List LogEntry) :
    (trimCursors l).map (fun e => e.time) = l.map (fun e => e.time) := by
  unfold trimCursors
  by_cases h : 2 < l.length
  · rw [if_pos h]
    cases l with
    | nil => rfl
    | cons x xs =>
      simp only [List.map_cons]
      rw [stripInner_times xs]
  · rw [if_neg h]

theorem map_true_of_all (f : LogEntry → Bool) : ∀ l : List LogEntry,
    (∀ e ∈ l, f e = true) → l.map f = List.replicate l.length true := by
  intro l
  induction l with
  | nil => intro; rfl
  | cons x xs ih =>
    intro hall
    simp only [List.map_cons, List.length_cons, List.replicate_succ]
    rw [hall x (by simp), ih (fun e he => hall e (List.mem_cons_of_mem x he))]

theorem trimCursors_mask (l : List LogEntry)
    (hall : ∀ e ∈ l, e.cursor.isSome = true) :
    (trimCursors l).map (fun e => e.cursor.isSome) = cursorMask l.length := by
  unfold trimCursors cursorMask
  by_cases h : 2 < l.length
  · rw [if_pos h, if_neg (by omega)]
    cases l with
    | nil => simp at h
    | cons x xs =>
      simp only [List.map_cons]
      rw [hall x (by simp)]
      rw [stripInner_mask xs (by intro hx; subst hx; simp at h)
            (fun e he => hall e (List.mem_cons_of_mem x he))]
      simp only [List.length_cons]
      congr 1
  · rw [if_neg h, if_pos (by omega)]
    exact map_true_of_all _ l hall

theorem newestFirstT_of_pairwise : ∀ ts : List (Option Int),
    ts.Pairwise (fun a b => optGtB a b = true) → newestFirstT ts = true := by
  intro ts
  induction ts with
  | nil => intro; rfl
  | cons a rest ih =>
    intro hp
    cases rest with
    | nil => rfl
    | cons b rest2 =>
      rw [List.pairwise_cons] at hp
      simp only [newestFirstT, Bool.and_eq_true]
      exact ⟨hp.1 b (by simp), ih hp.2⟩

theorem patternKeeps_fail (re : RegexEngine) (msg pat : String) (cs : Bool)
    (hp : pat ≠ "") (hc : re.compile pat cs = none) :
    patternKeeps re msg pat cs true = Except.error PatternError.compileFailed := by
  simp [patternKeeps, hp, MatchesRegex, hc]

theorem scanLoop_regex_fail (re : RegexEngine) (pat : String) (cs ss cancel : Bool)
    (hp : pat ≠ "") (hc : re.compile pat cs = none) :
    ∀ (recs : List JournalRecord) (maxE : Nat),
    scanLoop re pat cs true ss cancel maxE recs = Except.error PatternError.compileFailed ∨
    scanLoop re pat cs true ss cancel maxE recs = Except.ok [] := by
  intro recs
  induction recs with
  | nil =>
    intro maxE
    right
    rfl
  | cons r rs ih =>
    intro maxE
    simp only [scanLoop]
    by_cases hstop : maxE = 0 ∨ cancel = true
    · rw [if_pos hstop]
      right
      rfl
    · rw [if_neg hstop]
      cases hm : r.message with
      | none =>
        have hb : buildEntry re r pat cs true ss = Except.ok none := by
          simp [buildEntry, AddMsg, hm]
        rw [hb]
        exact ih maxE
      | some d =>
        have hb : buildEntry re r pat cs true ss
            = Except.error PatternError.compileFailed := by
          simp [buildEntry, AddMsg, hm, patternKeeps_fail re d pat cs hp hc]
        rw [hb]
        left
        rfl

theorem dmesgLoop_regex_fail (re : RegexEngine) (pat : String) (cs : Bool) (bootMs : Int)
    (hp : pat ≠ "") (hc : re.compile pat cs = none) :
    ∀ lines : List String,
    dmesgLoop re pat cs true bootMs lines = Except.error PatternError.compileFailed ∨
    dmesgLoop re pat cs true bootMs lines = Except.ok [] := by
  intro lines
  cases lines with
  | nil =>
    right
    rfl
  | cons s rest =>
    left
    simp [dmesgLoop, patternKeeps_fail re (ParseDmesgLog s bootMs).msg pat cs hp hc]

theorem reverse_take_head {α : Type} : ∀ (l : List α) (i : Nat) (r : α),
    l.get? i = some r → ((l.take (i + 1)).reverse).head? = some r := by
  intro l
  induction l with
  | nil =>
    intro i r h
    simp at h
  | cons a t ih =>
    intro i r h
    cases i with
    | zero =>
      simp only [List.get?] at h
      cases h
      rfl
    | succ j =>
      simp only [List.get?] at h
      have := ih j r h
      simp only [List.take_succ_cons, List.reverse_cons]
      rw [List.head?_append]
      rw [this]
      rfl

def c1params : LoadParams := { time := some 5, cursor := some { id := "c0" } }

/-- C1 counterexample: for the request with time 5 and cursor id c0 the
    journal scan seeks to the cursor position, not to the requested time in
    microseconds, so a present cursor is not ignored. -/
theorem c1_counterexample :
    seekSpecOf (SetFilter c1params).1 = SeekSpec.cursor "c0" false ∧
    seekSpecOf (SetFilter c1params).1 ≠ SeekSpec.realtime 5000000 := by
  decide

/-- C1 (amended): when both a time value and a cursor are present, the
    cursor wins: a non-empty cursor id makes the scan seek to the cursor
    position; the time-based seek (time converted to microseconds) is used
    only when the cursor id is empty and the time is positive. -/
theorem c1_cursor_precedence (params : LoadParams) (c : CursorParam) (t : Int)
    (hc : params.cursor = some c) (ht : params.time = some t) :
    (c.id ≠ "" →
      seekSpecOf (SetFilter params).1 =
        SeekSpec.cursor c.id ((SetFilter params).1.Direction ≠ TFilterDirection.Default)) ∧
    (c.id = "" → 0 < t →
      seekSpecOf (SetFilter params).1 = SeekSpec.realtime (t * 1000000).toNat) := by
  have hcur : (SetFilter params).1.Cursor = c.id := by simp [SetFilter, hc]
  have hfrom : (SetFilter params).1.FromUsec = t * 1000000 := by simp [SetFilter, ht]
  constructor
  · intro hid
    simp [seekSpecOf, hcur, hid]
  · intro hid hpos
    have hmul : (0 : Int) < t * 1000000 := by positivity
    simp [seekSpecOf, hcur, hid, hfrom, hmul]

/-- C1 witness: the amended precedence applied to the counterexample
    request. -/
theorem c1_witness :
    seekSpecOf (SetFilter c1params).1 =
      SeekSpec.cursor "c0" ((SetFilter c1params).1.Direction ≠ TFilterDirection.Default) :=
  (c1_cursor_precedence c1params { id := "c0" } 5 rfl rfl).1 (by decide)

/-- C9: a cursor whose direction string is neither forward nor backward
    (including an absent one) leaves the direction Default: the scan seeks
    to the cursor without the skip step and steps backward, and the record
    the cursor points to is the first record the loop visits; the skip step
    is issued exactly when the direction is explicitly forward or
    backward. -/
theorem c9_default_direction (params : LoadParams) (c : CursorParam)
    (vs : List JournalRecord) (i : Nat) (r : JournalRecord)
    (hc : params.cursor = some c) (hid : c.id ≠ "") :
    ((c.direction ≠ "forward" ∧ c.direction ≠ "backward") →
       (SetFilter params).1.Direction = TFilterDirection.Default ∧
       seekSpecOf (SetFilter params).1 = SeekSpec.cursor c.id false ∧
       stepDirOf (SetFilter params).1 = StepDir.backward ∧
       (vs.findIdx? (fun x => x.ctok = c.id) = some i → vs.get? i = some r →
          (seekList vs (SeekSpec.cursor c.id false) StepDir.backward).head? = some r)) ∧
    ((c.direction = "forward" ∨ c.direction = "backward") →
       seekSpecOf (SetFilter params).1 = SeekSpec.cursor c.id true) := by
  have hcur : (SetFilter params).1.Cursor = c.id := by simp [SetFilter, hc]
  constructor
  · rintro ⟨hf, hb⟩
    have hdir : (SetFilter params).1.Direction = TFilterDirection.Default := by
      simp [SetFilter, hc, hf, hb]
    refine ⟨hdir, ?_, ?_, ?_⟩
    · simp [seekSpecOf, hcur, hid, hdir]
    · simp [stepDirOf, hdir]
    · intro hfind hget
      have := reverse_take_head vs i r hget
      simpa [seekList, hfind] using this
  · intro hfb
    rcases hfb with hfwd | hbwd
    · have hdir : (SetFilter params).1.Direction = TFilterDirection.Forward := by
        simp [SetFilter, hc, hfwd]
      simp [seekSpecOf, hcur, hid, hdir]
    · have hdir : (SetFilter params).1.Direction = TFilterDirection.Backward := by
        simp [SetFilter, hc, hbwd]
      simp [seekSpecOf, hcur, hid, hdir]

def c9params : LoadParams := { cursor := some { id := "k2" } }

def c9recA : JournalRecord := { message := some "a", tsUsec := 1000000, ctok := "k1" }

def c9recB : JournalRecord := { message := some "b", tsUsec := 2000000, ctok := "k2" }

def c9recC : JournalRecord := { message := some "c", tsUsec := 3000000, ctok := "k3" }

/-- C9 witness: with cursor id k2 and no direction, the pointed record is
    the first one the backward scan visits. -/
theorem c9_witness :
    (seekList [c9recA, c9recB, c9recC] (SeekSpec.cursor "k2" false)
      StepDir.backward).head? = some c9recB :=
  ((c9_default_direction c9params { id := "k2" } [c9recA, c9recB, c9recC] 1 c9recB
      rfl (by decide)).1 ⟨by decide, by decide⟩).2.2.2 (by decide) (by decide)

/-- C10: the ring-buffer path never reads the cancellation flag: a Load for
    the dmesg sentinel returns the same entries for both values of the
    flag. -/
theorem c10_dmesg_ignores_cancel (re : RegexEngine) (params : LoadParams)
    (journal : List JournalRecord) (lines : List String) (bootMs : Int) (b1 b2 : Bool)
    (hs : params.service = DMESG_SERVICE) :
    GetLogs re params journal lines bootMs b1 = GetLogs re params journal lines bootMs b2 := by
  simp [GetLogs, hs]

/-- C10 witness: a concrete dmesg request is unchanged by the flag. -/
theorem c10_witness :
    GetLogs totalEngine { service := "dmesg" } [] ["x"] 0 false =
      GetLogs totalEngine { service := "dmesg" } [] ["x"] 0 true :=
  c10_dmesg_ignores_cancel totalEngine { service := "dmesg" } [] ["x"] 0 false true rfl

theorem Make_ok_cases (re : RegexEngine) (params : LoadParams)
    (journal : List JournalRecord) (cancel : Bool) (out : List LogEntry)
    (h : MakeJouralctlRequest re params journal cancel = Except.ok out) :
    ∃ out0,
      scanLoop re (SetFilter params).1.Pattern (SetFilter params).1.CaseSensitive
        (SetFilter params).1.RegEx ((SetFilter params).1.Service ≠ "")
        cancel (SetFilter params).1.MaxEntries (scanRecsOf params journal)
        = Except.ok out0 ∧
      out = (if (SetFilter params).1.Direction = TFilterDirection.Forward
             then out0.reverse else out0) := by
  simp only [MakeJouralctlRequest] at h
  cases hs : scanLoop re (SetFilter params).1.Pattern (SetFilter params).1.CaseSensitive
      (SetFilter params).1.RegEx ((SetFilter params).1.Service ≠ "")
      cancel (SetFilter params).1.MaxEntries (scanRecsOf params journal) with
  | error e =>
    rw [hs] at h
    exact absurd h (by simp)
  | ok out0 =>
    rw [hs] at h
    simp only [Except.ok.injEq] at h
    exact ⟨out0, rfl, h.symm⟩

/-- C5: every journal-path result page carries a cursor exactly on the
    pattern the spec gives: on every entry when the page has at most two
    entries, and only on the first and the last entry otherwise. -/
theorem c5_cursor_trimming (re : RegexEngine) (params : LoadParams)
    (journal : List JournalRecord) (cancel : Bool) (l : List LogEntry)
    (h : GetJouralctlLogs re params journal cancel = Except.ok l) :
    l.map (fun e => e.cursor.isSome) = cursorMask l.length := by
  unfold GetJouralctlLogs at h
  cases hm : MakeJouralctlRequest re params journal cancel with
  | error e =>
    rw [hm] at h
    exact absurd h (by simp [Except.map])
  | ok out =>
    rw [hm] at h
    simp only [Except.map, Except.ok.injEq] at h
    subst h
    obtain ⟨out0, hsl, hout⟩ := Make_ok_cases re params journal cancel out hm
    have hall0 := scanLoop_cursor_all re _ _ _ _ cancel _ _ out0 hsl
    have hall : ∀ e ∈ out, e.cursor.isSome = true := by
      intro e he
      rw [hout] at he
      by_cases hfwd : (SetFilter params).1.Direction = TFilterDirection.Forward
      · rw [if_pos hfwd] at he
        exact hall0 e (List.mem_reverse.mp he)
      · rw [if_neg hfwd] at he
        exact hall0 e he
    rw [trimCursors_mask out hall, trimCursors_length]

def c5journal : List JournalRecord :=
  [{ message := some "m1", tsUsec := 1000000, ctok := "t1" },
   { message := some "m2", tsUsec := 2000000, ctok := "t2" },
   { message := some "m3", tsUsec := 3000000, ctok := "t3" }]

def c5page : List LogEntry :=
  [{ msg := "m3", time := some 3000, cursor := some "t3" },
   { msg := "m2", time := some 2000 },
   { msg := "m1", time := some 1000, cursor := some "t1" }]

/-- C5 witness: a three-record journal yields a page whose cursor mask is
    true, false, true. -/
theorem c5_witness :
    c5page.map (fun e => e.cursor.isSome) = cursorMask c5page.length :=
  c5_cursor_trimming totalEngine {} c5journal false c5page (by decide)

/-- C3 (amended): the journal path clamps the number of returned entries to
    min(100, limit), with 100 the default for an absent limit, so limit 500
    yields at most 100 entries and limit 0 yields none; the ring-buffer path
    is not covered by the clamp (see the counterexample). -/
theorem c3_journal_clamp (re : RegexEngine) (params : LoadParams)
    (journal : List JournalRecord) (cancel : Bool) (l : List LogEntry)
    (h : GetJouralctlLogs re params journal cancel = Except.ok l) :
    l.length ≤ GetMaxLogsEntries params ∧ l.length ≤ 100 ∧
    (params.limit = some 0 → l = []) := by
  unfold GetJouralctlLogs at h
  cases hm : MakeJouralctlRequest re params journal cancel with
  | error e =>
    rw [hm] at h
    exact absurd h (by simp [Except.map])
  | ok out =>
    rw [hm] at h
    simp only [Except.map, Except.ok.injEq] at h
    subst h
    obtain ⟨out0, hsl, hout⟩ := Make_ok_cases re params journal cancel out hm
    have hlen0 := scanLoop_length re _ _ _ _ cancel _ _ out0 hsl
    have hmax : (SetFilter params).1.MaxEntries = GetMaxLogsEntries params := by
      simp [SetFilter]
    rw [hmax] at hlen0
    have hlenout : out.length = out0.length := by
      rw [hout]
      by_cases hfwd : (SetFilter params).1.Direction = TFilterDirection.Forward
      · rw [if_pos hfwd, List.length_reverse]
      · rw [if_neg hfwd]
    have hlen : (trimCursors out).length ≤ GetMaxLogsEntries params := by
      rw [trimCursors_length, hlenout]
      exact hlen0
    refine ⟨hlen, ?_, ?_⟩
    · calc (trimCursors out).length ≤ GetMaxLogsEntries params := hlen
        _ ≤ 100 := min_le_left _ _
    · intro h0
      have : GetMaxLogsEntries params = 0 := by
        simp [GetMaxLogsEntries, h0]
      rw [this, Nat.le_zero] at hlen
      exact List.eq_nil_of_length_eq_zero hlen

/-- C3 counterexample: a dmesg request with limit 0 still returns an entry,
    so the clamp does not hold on the ring-buffer path. -/
theorem c3_counterexample :
    GetLogs totalEngine { service := "dmesg", limit := some 0 } [] ["hello"] 0 false
      = Except.ok [{ msg := "hello" }] := by
  decide

/-- C3 witness: the journal clamp applied to a request with limit 500 on a
    three-record journal. -/
theorem c3_witness :
    c5page.length ≤ GetMaxLogsEntries { limit := some 500 } ∧
      c5page.length ≤ 100 ∧ (some 500 = some 0 → c5page = []) := by
  have := c3_journal_clamp totalEngine { limit := some 500 } c5journal false c5page
    (by decide)
  exact ⟨this.1, this.2.1, fun hx => absurd hx (by decide)⟩

/-- C7 (amended): with regex true and a pattern that fails to compile, every
    record whose message is examined raises the pattern error, which
    propagates through Load to the caller; the call can only end in that
    error or — when no message is ever examined (empty scan, zero limit,
    cancellation) — in an empty result, never in a nonempty entry list. -/
theorem c7_regex_error_propagates (re : RegexEngine) (params : LoadParams)
    (journal : List JournalRecord) (lines : List String) (bootMs : Int) (cancel : Bool)
    (hrx : params.regex = true) (hp : params.pattern ≠ "")
    (hc : re.compile params.pattern params.caseSensitive = none) :
    GetLogs re params journal lines bootMs cancel = Except.error PatternError.compileFailed ∨
    GetLogs re params journal lines bootMs cancel = Except.ok [] := by
  unfold GetLogs
  by_cases hs : params.service = DMESG_SERVICE
  · rw [if_pos hs]
    unfold GetDmesgLogs
    rw [hrx]
    exact dmesgLoop_regex_fail re params.pattern params.caseSensitive bootMs hp hc lines
  · rw [if_neg hs]
    unfold GetJouralctlLogs
    simp only [MakeJouralctlRequest]
    have hPat : (SetFilter params).1.Pattern = params.pattern := by simp [SetFilter]
    have hCs : (SetFilter params).1.CaseSensitive = params.caseSensitive := by
      simp [SetFilter]
    have hRx : (SetFilter params).1.RegEx = true := by simp [SetFilter, hrx]
    rw [hPat, hCs, hRx]
    rcases scanLoop_regex_fail re params.pattern params.caseSensitive
        ((SetFilter params).1.Service ≠ "") cancel hp hc
        (scanRecsOf params journal) (SetFilter params).1.MaxEntries with hsl | hsl
    · rw [hsl]
      left
      rfl
    · rw [hsl]
      right
      simp [Except.map, trimCursors]

def c7params : LoadParams := { regex := true, pattern := "(unclosed" }

/-- C7 counterexample: on an empty journal, a Load with an uncompilable
    regex pattern succeeds with an empty list instead of failing, because
    the pattern is compiled lazily per visited record. -/
theorem c7_counterexample :
    isLoadError (GetLogs failingEngine c7params [] [] 0 false) = false ∧
    GetLogs failingEngine c7params [] [] 0 false = Except.ok [] := by
  decide

def c7rec : JournalRecord := { message := some "boom", tsUsec := 1000000, ctok := "t1" }

/-- C7 witness: the amended statement applied to a one-record journal with
    an uncompilable pattern. -/
theorem c7_witness :
    GetLogs failingEngine c7params [c7rec] [] 0 false
      = Except.error PatternError.compileFailed ∨
    GetLogs failingEngine c7params [c7rec] [] 0 false = Except.ok [] :=
  c7_regex_error_propagates failingEngine c7params [c7rec] [] 0 false rfl
    (by decide) rfl

/-- C4 (amended): when the services listing command fails inside List, the
    exception is caught: the call returns normally with the cached boots
    value and the services member absent (not an empty array); when the
    command succeeds, the services list always ends with the dmesg sentinel
    and is never empty. -/
theorem c4_list_degrades (boots : List BootRec) (err : String) (ls : List String) :
    (listRPC boots (Except.error err)).boots = boots ∧
    (listRPC boots (Except.error err)).servicesMember = none ∧
    (listRPC boots (Except.ok ls)).servicesMember
      = some (ls.filterMap serviceLine ++ [DMESG_SERVICE]) ∧
    (listRPC boots (Except.ok ls)).servicesMember ≠ some [] := by
  refine ⟨rfl, rfl, rfl, ?_⟩
  simp [listRPC, GetServices]

def c4cmdFail : Except String (List String) := Except.error "Cannot open pipe"

/-- C4 counterexample: when the services command fails, the response omits
    the services member entirely, so it is not the empty services array the
    claim promises. -/
theorem c4_counterexample :
    (listRPC [] c4cmdFail).servicesMember = none ∧
    (listRPC [] c4cmdFail).servicesMember ≠ some [] := by
  decide

/-- C4 witness: the amended degradation applied to concrete outcomes of the
    services command. -/
theorem c4_witness :
    (listRPC [] (Except.error "x")).servicesMember = none ∧
    (listRPC [] (Except.ok [])).servicesMember = some ["dmesg"] := by
  have h := c4_list_degrades [] "x" []
  exact ⟨h.2.1, by rw [h.2.2.1]; rfl⟩

/-- C8: with regex false an empty pattern keeps every message; a non-empty
    pattern keeps a message exactly when the pattern occurs in it as a
    substring, both operands being case-folded first in case-insensitive
    mode. -/
theorem c8_substring_matching (re : RegexEngine) (msg pat : String) :
    (pat = "" → patternKeeps re msg pat true false = Except.ok true ∧
                patternKeeps re msg pat false false = Except.ok true) ∧
    (pat ≠ "" →
      ((patternKeeps re msg pat true false = Except.ok true) ↔
         ContainsSub msg.data pat.data) ∧
      ((patternKeeps re msg pat false false = Except.ok true) ↔
         ContainsSub (foldCase msg).data (foldCase pat).data)) := by
  constructor
  · intro hp
    exact ⟨by simp [patternKeeps, hp], by simp [patternKeeps, hp]⟩
  · intro hp
    have hk : ∀ cs, patternKeeps re msg pat cs false
        = Except.ok (HasSubstring msg pat cs) := by
      intro cs
      simp [patternKeeps, hp]
    constructor
    · rw [hk true]
      simp only [Except.ok.injEq]
      rw [show HasSubstring msg pat true = (findSub pat.data msg.data).isSome from by
        simp [HasSubstring]]
      exact findSub_isSome_iff pat.data msg.data
    · rw [hk false]
      simp only [Except.ok.injEq]
      rw [show HasSubstring msg pat false
          = (findSub (foldCase pat).data (foldCase msg).data).isSome from by
        simp [HasSubstring]]
      exact findSub_isSome_iff (foldCase pat).data (foldCase msg).data

/-- C8 witness: the spec's round-trip example — case-insensitive substring
    match of error against an ERROR message — and the empty pattern. -/
theorem c8_witness :
    patternKeeps totalEngine "ERROR: disk full" "error" false false = Except.ok true ∧
    patternKeeps totalEngine "abc" "" true false = Except.ok true := by
  constructor
  · exact ((c8_substring_matching totalEngine "ERROR: disk full" "error").2
      (by decide)).2.mpr ⟨[], (": disk full").data, by decide⟩
  · exact ((c8_substring_matching totalEngine "abc" "").1 rfl).1

theorem buildEntry_level_tag (re : RegexEngine) (rec : JournalRecord) (pat : String)
    (cs rx ss : Bool) (e : LogEntry) (d : String)
    (hm : rec.message = some d) (hp6 : rec.priority = some 6)
    (hb : buildEntry re rec pat cs rx ss = Except.ok (some e)) :
    e.level = tagLevel d := by
  simp only [buildEntry, AddMsg, hm] at hb
  cases hk : patternKeeps re d pat cs rx with
  | error er =>
    rw [hk] at hb
    exact absurd hb (by simp)
  | ok b =>
    rw [hk] at hb
    cases b with
    | false => exact absurd hb (by simp)
    | true =>
      simp only [Except.ok.injEq, Option.some.injEq] at hb
      subst hb
      by_cases hss : ss = true
      · rw [if_pos hss, AddPriority_level_of_info _ _ hp6, AddCursor_level,
          AddTimestamp_level]
      · rw [if_neg hss, AddService_level, AddPriority_level_of_info _ _ hp6,
          AddCursor_level, AddTimestamp_level]

/-- C6: for a scanned record with raw priority 6, a message starting with
    WARNING: yields level 4 (the prefix-derived value wins), and a message
    starting with none of the recognized tags yields no level field. -/
theorem c6_level_precedence (re : RegexEngine) (rec : JournalRecord) (pat : String)
    (cs rx ss : Bool) (e : LogEntry) (d : String)
    (hm : rec.message = some d) (hp6 : rec.priority = some 6)
    (hb : buildEntry re rec pat cs rx ss = Except.ok (some e)) :
    (strStartsWith d "WARNING:" = true → e.level = some 4) ∧
    ((strStartsWith d "ERROR:" = false ∧ strStartsWith d "WARNING:" = false ∧
      strStartsWith d "DEBUG:" = false) → e.level = none) := by
  have hlevel := buildEntry_level_tag re rec pat cs rx ss e d hm hp6 hb
  constructor
  · intro hW
    obtain ⟨r, hr⟩ := (startsList_iff ("WARNING:".data) d.data).mp hW
    have hE : strStartsWith d "ERROR:" = false := by
      rw [strStartsWith, hr]
      rfl
    rw [hlevel, tagLevel, LibWbMqttLogLevels]
    rw [List.find?_cons_of_neg _ (by simp [hE]), List.find?_cons_of_pos _ (by simp [hW])]
    rfl
  · rintro ⟨hE, hW, hD⟩
    rw [hlevel, tagLevel, LibWbMqttLogLevels]
    rw [List.find?_cons_of_neg _ (by simp [hE]), List.find?_cons_of_neg _ (by simp [hW]),
      List.find?_cons_of_neg _ (by simp [hD])]
    rfl

def c6rec : JournalRecord :=
  { message := some "WARNING: low voltage", priority := some 6,
    tsUsec := 1000000, ctok := "t" }

def c6entry : LogEntry :=
  { msg := "WARNING: low voltage", time := some 1000, level := some 4,
    cursor := some "t" }

/-- C6 witness: a priority-6 record tagged WARNING: produces level 4. -/
theorem c6_witness : c6entry.level = some 4 :=
  (c6_level_precedence totalEngine c6rec "" true false true c6entry
    "WARNING: low voltage" rfl rfl (by decide)).1 (by decide)

/-- C2 (amended): a journal-path Load without cursor and without time scans
    from the tail backward, so over a chronologically stored journal whose
    records are strictly ordered at millisecond resolution the returned
    entries are strictly newest-first; the ring-buffer path instead keeps
    the source's chronological oldest-first order (see the
    counterexample). -/
theorem c2_journal_newest_first (re : RegexEngine) (params : LoadParams)
    (journal : List JournalRecord) (lines : List String) (bootMs : Int)
    (cancel : Bool) (l : List LogEntry)
    (hcur : params.cursor = none) (htime : params.time = none)
    (hsvc : params.service ≠ DMESG_SERVICE)
    (hchron : journal.Pairwise (fun a b => a.tsUsec / 1000 < b.tsUsec / 1000))
    (h : GetLogs re params journal lines bootMs cancel = Except.ok l) :
    newestFirst l = true := by
  rw [GetLogs, if_neg hsvc] at h
  unfold GetJouralctlLogs at h
  cases hm : MakeJouralctlRequest re params journal cancel with
  | error e =>
    rw [hm] at h
    exact absurd h (by simp [Except.map])
  | ok out =>
    rw [hm] at h
    simp only [Except.map, Except.ok.injEq] at h
    subst h
    obtain ⟨out0, hsl, hout⟩ := Make_ok_cases re params journal cancel out hm
    have hdir : (SetFilter params).1.Direction = TFilterDirection.Default := by
      simp [SetFilter, hcur]
    rw [hdir, if_neg (by decide : ¬ TFilterDirection.Default = TFilterDirection.Forward)]
      at hout
    subst hout
    have hrecs : scanRecsOf params journal
        = (journal.filter (recVisible (SetFilter params).2)).reverse := by
      have hcemp : (SetFilter params).1.Cursor = "" := by simp [SetFilter, hcur]
      have hfrom : (SetFilter params).1.FromUsec = 0 := by simp [SetFilter, htime]
      have hseek : seekSpecOf (SetFilter params).1 = SeekSpec.tail := by
        simp [seekSpecOf, hcemp, hfrom]
      have hstep : stepDirOf (SetFilter params).1 = StepDir.backward := by
        simp [stepDirOf, hdir]
      rw [scanRecsOf, hseek, hstep, seekList]
    rw [hrecs] at hsl
    have hvs : (journal.filter (recVisible (SetFilter params).2)).Pairwise
        (fun a b => a.tsUsec / 1000 < b.tsUsec / 1000) := hchron.filter _
    have hrev : ((journal.filter (recVisible (SetFilter params).2)).reverse).Pairwise
        (fun a b => b.tsUsec / 1000 < a.tsUsec / 1000) := by
      rw [List.pairwise_reverse]
      exact hvs
    have hmap : (((journal.filter (recVisible (SetFilter params).2)).reverse).map
        (fun r => some ((r.tsUsec / 1000 : Nat) : Int))).Pairwise
        (fun a b => optGtB a b = true) := by
      rw [List.pairwise_map]
      refine hrev.imp ?_
      intro a b hab
      simp only [optGtB, decide_eq_true_eq]
      exact_mod_cast hab
    have hsub := scanLoop_times_sublist re _ _ _ _ cancel _ _ out hsl
    have hpw : (out.map (fun e => e.time)).Pairwise (fun a b => optGtB a b = true) :=
      List.Pairwise.sublist hsub hmap
    rw [newestFirst, trimCursors_times]
    exact newestFirstT_of_pairwise _ hpw

def c2lines : List String := ["[1.000000] first", "[2.000000] second"]

def c2out : List LogEntry :=
  [{ msg := "first", time := some 1000 }, { msg := "second", time := some 2000 }]

/-- C2 counterexample: a dmesg-path Load without cursor and without time
    returns the ring-buffer lines in their chronological oldest-first order,
    which is not strictly newest-first. -/
theorem c2_counterexample :
    GetLogs totalEngine { service := "dmesg" } [] c2lines 0 false = Except.ok c2out ∧
    newestFirst c2out = false := by
  decide

/-- C2 witness: the journal-path ordering applied to a concrete
    three-record journal. -/
theorem c2_witness : newestFirst c5page = true :=
  c2_journal_newest_first totalEngine {} c5journal [] 0 false c5page rfl rfl
    (by decide) (by decide) (by decide)
